import Mathlib

/-!
Verification of the gym-app membership lifecycle engine.

Shallow embedding of the repository's Python sources:
`utils.py` (date math, status inference, validation), `models.py`
(plan enumeration), `db.py` (sqlite helpers, settings), `auth.py`
(login, change_password) and the relevant database-touching parts of
`app.py` (status refresh, member delete, renewal default start date).

Calendar dates (Python `datetime.date`) are triples of naturals; all
ISO-8601 strings `YYYY-MM-DD` in the code correspond bijectively to
valid triples, and `parse_iso` below models `date.fromisoformat` on
that canonical form.
-/

namespace GymApp

/-- A calendar date, modelling Python's `datetime.date` (year, month, day). -/
structure Date where
  year : Nat
  month : Nat
  day : Nat
deriving DecidableEq, Repr

/-- Gregorian leap-year rule. -/
def isLeap (y : Nat) : Bool :=
  (y % 4 == 0 && y % 100 != 0) || y % 400 == 0

/-- Number of days in month `m` of year `y` (civil calendar). -/
def daysInMonth (y m : Nat) : Nat :=
  if m = 2 then (if isLeap y then 29 else 28)
  else if m = 4 ∨ m = 6 ∨ m = 9 ∨ m = 11 then 30
  else 31

/-- A date is a valid civil-calendar date (Python's `date` invariant). -/
def Date.valid (d : Date) : Prop :=
  1 ≤ d.month ∧ d.month ≤ 12 ∧ 1 ≤ d.day ∧ d.day ≤ daysInMonth d.year d.month

instance (d : Date) : Decidable d.valid := by
  unfold Date.valid
  infer_instance

/-- Python date ordering (lexicographic on year, month, day): `a <= b`. -/
def dateLe (a b : Date) : Bool :=
  a.year < b.year ||
    (a.year == b.year &&
      (a.month < b.month || (a.month == b.month && a.day ≤ b.day)))

/-- Python date ordering (lexicographic on year, month, day): `a < b`. -/
def dateLt (a b : Date) : Bool :=
  a.year < b.year ||
    (a.year == b.year &&
      (a.month < b.month || (a.month == b.month && a.day < b.day)))

/-- Python `d - timedelta(days=1)` on a valid date. -/
def subOneDay (d : Date) : Date :=
  if 1 < d.day then ⟨d.year, d.month, d.day - 1⟩
  else if 1 < d.month then ⟨d.year, d.month - 1, daysInMonth d.year (d.month - 1)⟩
  else ⟨d.year - 1, 12, 31⟩

/-- Python `d + timedelta(days=1)` on a valid date. -/
def addOneDay (d : Date) : Date :=
  if d.day < daysInMonth d.year d.month then ⟨d.year, d.month, d.day + 1⟩
  else if d.month < 12 then ⟨d.year, d.month + 1, 1⟩
  else ⟨d.year + 1, 1, 1⟩

/-- `utils.add_months`: add `months` months, clamping the day to the last
valid day of the target month.  Translated from `src/utils.py`:
`y = start.year + (start.month - 1 + months) // 12`,
`m = (start.month - 1 + months) % 12 + 1`, `next_month` is the first day
of the month after `(y, m)`, `last_day = next_month - timedelta(days=1)`,
`day = min(start.day, last_day.day)`. -/
def add_months (start : Date) (months : Nat) : Date :=
  let y := start.year + (start.month - 1 + months) / 12
  let m := (start.month - 1 + months) % 12 + 1
  let next_month : Date := if m = 12 then ⟨y + 1, 1, 1⟩ else ⟨y, m + 1, 1⟩
  let last_day := subOneDay next_month
  let day := min start.day last_day.day
  ⟨y, m, day⟩

/-- `models.PLAN_MONTHS`:
`{"1 month": 1, "3 months": 3, "6 months": 6, "12 months": 12}` as a
lookup, `none` for any other plan type (a Python dict miss). -/
def PLAN_MONTHS (plan_type : String) : Option Nat :=
  if plan_type = "1 month" then some 1
  else if plan_type = "3 months" then some 3
  else if plan_type = "6 months" then some 6
  else if plan_type = "12 months" then some 12
  else none

/-- `utils.calc_end_date`: `months = PLAN_MONTHS.get(plan_type, 1)`, then
`add_months(start, months)`; ISO strings are represented by their parsed
dates. -/
def calc_end_date (start : Date) (plan_type : String) : Date :=
  add_months start ((PLAN_MONTHS plan_type).getD 1)

/-- `utils.infer_status`:
`"active" if parse_iso(end_date_iso) >= date.today() else "expired"`;
`today` is passed explicitly (the current date at the moment of
evaluation), and the ISO argument is represented by its parsed date. -/
def infer_status (end_date today : Date) : String :=
  if dateLe today end_date then "active" else "expired"

/-- Python `str.strip()`: drop leading and trailing whitespace. -/
def pyStrip (s : String) : String :=
  ⟨((s.data.dropWhile Char.isWhitespace).reverse.dropWhile Char.isWhitespace).reverse⟩

/-- Models Python `float(s)` acceptance on decimal literals: optional
surrounding whitespace, optional sign, then digits with an optional
fractional part (`"12"`, `"-5"`, `"3.5"`, `".5"`, `"2."`).  Exotic forms
(exponents, infinities, underscores) are outside the fragment the
application uses; everything this model accepts, Python accepts. -/
def pyFloatAccepts (s : String) : Bool :=
  let cs := (pyStrip s).toList
  let cs := match cs with
    | '+' :: r => r
    | '-' :: r => r
    | r => r
  match cs.span Char.isDigit with
  | (intPart, []) => !intPart.isEmpty
  | (intPart, '.' :: frac) =>
      (!intPart.isEmpty || !frac.isEmpty) && frac.all Char.isDigit
  | _ => false

/-- Numeric value of a digit character. -/
def digitVal (c : Char) : Nat := c.toNat - Char.toNat '0'

/-- `utils.parse_iso`, i.e. Python `date.fromisoformat`, on the canonical
`YYYY-MM-DD` form: exactly ten characters, dashes at positions 4 and 7,
the rest digits, and the triple must be a real calendar date (year at
least 1, month 1..12, day within the month); otherwise `ValueError`,
modelled as `none`. -/
def parse_iso (s : String) : Option Date :=
  match s.toList with
  | [y1, y2, y3, y4, '-', m1, m2, '-', d1, d2] =>
      if ([y1, y2, y3, y4, m1, m2, d1, d2]).all Char.isDigit then
        let y := ((digitVal y1 * 10 + digitVal y2) * 10 + digitVal y3) * 10 + digitVal y4
        let m := digitVal m1 * 10 + digitVal m2
        let d := digitVal d1 * 10 + digitVal d2
        if 1 ≤ y ∧ 1 ≤ m ∧ m ≤ 12 ∧ 1 ≤ d ∧ d ≤ daysInMonth y m then
          some ⟨y, m, d⟩
        else none
      else none
  | _ => none

/-- Error message appended when the trimmed full name is empty. -/
def nameErr : String := "Full name is required."

/-- Error message appended when the trimmed phone is empty. -/
def phoneErr : String := "Phone is required."

/-- Error message appended when `float(plan_price)` raises. -/
def priceErr : String := "Plan price must be numeric."

/-- Error message appended when both dates parse but `ed <= sd`. -/
def orderErr : String := "End date must be after start date."

/-- Error message appended when either date fails to parse. -/
def dateErr : String := "Start/end dates must be valid ISO dates (YYYY-MM-DD)."

/-- `utils.validate_member_inputs`: appends, in order — blank-name check,
blank-phone check, `float(plan_price)` parse check, then a `try` block
that parses both dates and flags `ed <= sd` as an ordering error, and
whose `except` arm reports a single date-format error instead. -/
def validate_member_inputs (full_name phone plan_price start_date end_date : String) :
    List String :=
  (if pyStrip full_name = "" then [nameErr] else []) ++
  (if pyStrip phone = "" then [phoneErr] else []) ++
  (if pyFloatAccepts plan_price then [] else [priceErr]) ++
  (match parse_iso start_date, parse_iso end_date with
   | some sd, some ed => if dateLe ed sd then [orderErr] else []
   | _, _ => [dateErr])

/-- `app.renewals_page` default start date:
`default_start = date.today()`, replaced by
`current_end + timedelta(days=1)` when `current_end >= date.today()`. -/
def renewalDefaultStart (current_end today : Date) : Date :=
  if dateLe today current_end then addOneDay current_end else today

/-- A row of the `members` table (schema in `db._create_tables`). -/
structure MemberRow where
  id : Nat
  full_name : String
  phone : String
  national_id : Option String
  join_date : Date
  plan_type : String
  plan_price : Rat
  start_date : Date
  end_date : Date
  status : String
deriving DecidableEq, Repr

/-- A row of the `payments` table (schema in `db._create_tables`). -/
structure PaymentRow where
  id : Nat
  member_id : Nat
  amount : Rat
  date : Date
  method : String
  notes : Option String
deriving DecidableEq, Repr

/-- The members/payments database state the claims touch. -/
structure DBState where
  members : List MemberRow
  payments : List PaymentRow
deriving DecidableEq, Repr

/-- `db.get_conn` opens the connection with
`sqlite3.connect(DB_FILE, check_same_thread=False)`, sets a row factory,
and never executes `PRAGMA foreign_keys = ON`.  sqlite keeps foreign-key
enforcement OFF per connection unless that pragma is run, so this flag
records what the connections of this program actually enable. -/
def foreignKeysEnabled : Bool := false

/-- The member-delete operation of `app.members_page`:
`DELETE FROM members WHERE id = ?` on a `get_conn` connection.  Under
sqlite semantics the `ON DELETE CASCADE` declared on `payments.member_id`
fires only when the connection has enabled foreign keys; with them off
(`foreignKeysEnabled`) the statement touches only the `members` table. -/
def deleteMember (s : DBState) (mid : Nat) : DBState :=
  { members := s.members.filter (fun m => m.id ≠ mid),
    payments :=
      if foreignKeysEnabled then s.payments.filter (fun p => p.member_id ≠ mid)
      else s.payments }

/-- A payment row is an orphan when no member row carries its `member_id`. -/
def hasOrphanPayments (s : DBState) : Bool :=
  s.payments.any (fun p => s.members.all (fun m => m.id ≠ p.member_id))

/-- `UPDATE members SET status = ? WHERE id = ?` on the members list. -/
def updateStatusById (rows : List MemberRow) (mid : Nat) (st : String) :
    List MemberRow :=
  rows.map (fun m => if m.id = mid then { m with status := st } else m)

/-- `app.refresh_member_statuses`: fetch the `(id, end_date)` snapshot of
`members`, then for each snapshot row execute
`UPDATE members SET status = ? WHERE id = ?` with
`utils.infer_status(end_date)`. -/
def refresh_member_statuses (rows : List MemberRow) (today : Date) :
    List MemberRow :=
  (rows.map (fun r => (r.id, r.end_date))).foldl
    (fun acc p => updateStatusById acc p.1 (infer_status p.2 today)) rows

/-- A row of the `admin_users` table (schema in `db._create_tables`). -/
structure AdminRow where
  id : Nat
  username : String
  password_hash : String
  created_at : String
deriving DecidableEq, Repr

/-- `auth.get_admin_by_username`:
`fetch_one("SELECT * FROM admin_users WHERE username = ?")`. -/
def get_admin_by_username (admins : List AdminRow) (username : String) :
    Option AdminRow :=
  admins.find? (fun a => a.username = username)

/-- `auth.login`: returns `False` when no admin row matches the username,
otherwise delegates to `verify_password(password, admin["password_hash"])`.
`bcrypt.checkpw` is external cryptography, so the verifier is an explicit
function argument. -/
def login (verify : String → String → Bool) (admins : List AdminRow)
    (username password : String) : Bool :=
  match get_admin_by_username admins username with
  | none => false
  | some admin => verify password admin.password_hash

/-- The auth-relevant database state: `admin_users` plus `app_settings`. -/
structure AuthState where
  admins : List AdminRow
  settings : List (String × String)
deriving DecidableEq, Repr

/-- `db._set_setting`: `INSERT INTO app_settings(key, value)
ON CONFLICT(key) DO UPDATE SET value=excluded.value` — an upsert on the
primary key `key`. -/
def setSetting (settings : List (String × String)) (key value : String) :
    List (String × String) :=
  if settings.any (fun kv => kv.1 = key) then
    settings.map (fun kv => if kv.1 = key then (key, value) else kv)
  else settings ++ [(key, value)]

/-- `db._get_setting` via
`fetch_one("SELECT value FROM app_settings WHERE key = ?")`. -/
def getSetting (settings : List (String × String)) (key : String) :
    Option String :=
  (settings.find? (fun kv => kv.1 = key)).map (fun kv => kv.2)

/-- `db.clear_force_password_change`:
`_set_setting("force_password_change", "0")`. -/
def clear_force_password_change (settings : List (String × String)) :
    List (String × String) :=
  setSetting settings "force_password_change" "0"

/-- `auth.change_password`: hash the new password (`bcrypt.hashpw` draws a
random salt, so the hasher is a function argument), run
`UPDATE admin_users SET password_hash = ? WHERE username = ?`, then call
`db.clear_force_password_change()`. -/
def change_password (hash : String → String) (s : AuthState)
    (username new_password : String) : AuthState :=
  let new_hash := hash new_password
  { admins := s.admins.map (fun a =>
      if a.username = username then { a with password_hash := new_hash } else a),
    settings := clear_force_password_change s.settings }

/-- The per-row effect `refresh_member_statuses` is expected to have:
overwrite `status` from `end_date`, touch nothing else. -/
def setStatusFromEnd (today : Date) (m : MemberRow) : MemberRow :=
  { m with status := infer_status m.end_date today }

/-! ### Helper lemmas -/

theorem dateLe_of_dateLt {a b : Date} (h : dateLt a b = true) : dateLe a b = true := by
  simp only [dateLt, dateLe, Bool.or_eq_true, Bool.and_eq_true, beq_iff_eq,
    decide_eq_true_eq] at h ⊢
  omega

theorem dateLe_eq_false_of_dateLt {a b : Date} (h : dateLt a b = true) :
    dateLe b a = false := by
  cases hle : dateLe b a with
  | false => rfl
  | true =>
      exfalso
      simp only [dateLt, dateLe, Bool.or_eq_true, Bool.and_eq_true, beq_iff_eq,
        decide_eq_true_eq] at h hle
      omega

theorem dateLe_refl (a : Date) : dateLe a a = true := by
  simp [dateLe]

theorem subOneDay_first_of_next (y m : Nat) (h1 : 1 ≤ m) (h2 : m ≤ 12) :
    (subOneDay (if m = 12 then ⟨y + 1, 1, 1⟩ else ⟨y, m + 1, 1⟩)).day =
      daysInMonth y m := by
  by_cases h : m = 12
  · subst h
    simp [subOneDay, daysInMonth]
  · rw [if_neg h]
    have hd : ¬ (1 : Nat) < (⟨y, m + 1, 1⟩ : Date).day := by simp
    have hm : 1 < (⟨y, m + 1, 1⟩ : Date).month := by simp; omega
    rw [subOneDay, if_neg hd, if_pos hm]
    simp

/-- Characterization of `add_months` on any date with a real month number:
target month is `months` positions later with the year carried, and the
day is the original day clamped to the target month's length. -/
theorem add_months_eq (d : Date) (n : Nat) :
    add_months d n =
      ⟨d.year + (d.month - 1 + n) / 12,
       (d.month - 1 + n) % 12 + 1,
       min d.day (daysInMonth (d.year + (d.month - 1 + n) / 12)
         ((d.month - 1 + n) % 12 + 1))⟩ := by
  have h1 : 1 ≤ (d.month - 1 + n) % 12 + 1 := by omega
  have h2 : (d.month - 1 + n) % 12 + 1 ≤ 12 := by
    have := Nat.mod_lt (d.month - 1 + n) (show 0 < 12 by omega)
    omega
  simp only [add_months]
  rw [subOneDay_first_of_next _ _ h1 h2]

/-! ### Claim theorems -/

/-- C3: for every valid calendar date `d` and month count `n ≥ 0`,
`add_months d n` returns the date whose month is `n` calendar months
after `d`'s month (year carried accordingly) and whose day is
`min d.day (last valid day of the target month)`; in particular
`add_months 2024-01-31 1 = 2024-02-29` and
`add_months 2023-01-31 1 = 2023-02-28`. -/
theorem c3_add_months_correct :
    (∀ (d : Date) (n : Nat), d.valid →
      add_months d n =
        ⟨d.year + (d.month - 1 + n) / 12,
         (d.month - 1 + n) % 12 + 1,
         min d.day (daysInMonth (d.year + (d.month - 1 + n) / 12)
           ((d.month - 1 + n) % 12 + 1))⟩) ∧
    add_months ⟨2024, 1, 31⟩ 1 = ⟨2024, 2, 29⟩ ∧
    add_months ⟨2023, 1, 31⟩ 1 = ⟨2023, 2, 28⟩ :=
  ⟨fun d n _ => add_months_eq d n, by decide, by decide⟩

/-- Witness for C3 at `d = 2024-01-31`, `n = 1`. -/
theorem c3_add_months_correct_witness :
    Date.valid ⟨2024, 1, 31⟩ ∧
    add_months ⟨2024, 1, 31⟩ 1 =
      ⟨2024 + (1 - 1 + 1) / 12, (1 - 1 + 1) % 12 + 1,
       min 31 (daysInMonth (2024 + (1 - 1 + 1) / 12) ((1 - 1 + 1) % 12 + 1))⟩ :=
  ⟨by decide, c3_add_months_correct.1 ⟨2024, 1, 31⟩ 1 (by decide)⟩

/-- C4: `infer_status` returns `"active"` iff the end date is at or after
`today` (the current date at the moment of evaluation), `"expired"`
otherwise; at the boundary, `infer_status` on today's date is `"active"`. -/
theorem c4_infer_status_correct :
    ∀ (d today : Date),
      (infer_status d today = "active" ↔ dateLe today d = true) ∧
      infer_status today today = "active" := by
  intro d today
  constructor
  · by_cases h : dateLe today d = true
    · simp [infer_status, h]
    · simp [infer_status, h]
  · simp [infer_status, dateLe_refl]

/-- C5: `calc_end_date s t = add_months s m` with `m` given by the
enumeration `{"1 month" ↦ 1, "3 months" ↦ 3, "6 months" ↦ 6,
"12 months" ↦ 12}` and `m = 1` for every plan type outside the
enumeration; in particular
`calc_end_date 2024-01-15 "3 months" = 2024-04-15`. -/
theorem c5_calc_end_date_correct :
    (∀ s : Date, calc_end_date s "1 month" = add_months s 1) ∧
    (∀ s : Date, calc_end_date s "3 months" = add_months s 3) ∧
    (∀ s : Date, calc_end_date s "6 months" = add_months s 6) ∧
    (∀ s : Date, calc_end_date s "12 months" = add_months s 12) ∧
    (∀ (s : Date) (t : String), t ≠ "1 month" → t ≠ "3 months" →
      t ≠ "6 months" → t ≠ "12 months" → calc_end_date s t = add_months s 1) ∧
    calc_end_date ⟨2024, 1, 15⟩ "3 months" = ⟨2024, 4, 15⟩ := by
  refine ⟨fun s => rfl, fun s => rfl, fun s => rfl, fun s => rfl,
    fun s t h1 h3 h6 h12 => ?_, by decide⟩
  simp [calc_end_date, PLAN_MONTHS, h1, h3, h6, h12]

/-- Witness for C5 with the out-of-enumeration plan type `"weekly"`. -/
theorem c5_calc_end_date_correct_witness :
    "weekly" ≠ "1 month" ∧
    calc_end_date ⟨2024, 1, 15⟩ "weekly" = add_months ⟨2024, 1, 15⟩ 1 :=
  ⟨by decide, c5_calc_end_date_correct.2.2.2.2.1 ⟨2024, 1, 15⟩ "weekly"
    (by decide) (by decide) (by decide) (by decide)⟩

/-- C6: in the renewal flow, a member whose end date is strictly in the
future gets `end_date + 1 day` as the default new start date, and a member
whose end date has passed gets today. -/
theorem c6_renewal_default_start_correct :
    ∀ (end_date today : Date),
      (dateLt today end_date = true →
        renewalDefaultStart end_date today = addOneDay end_date) ∧
      (dateLt end_date today = true →
        renewalDefaultStart end_date today = today) := by
  intro e t
  constructor
  · intro h
    simp [renewalDefaultStart, dateLe_of_dateLt h]
  · intro h
    simp [renewalDefaultStart, dateLe_eq_false_of_dateLt h]

/-- Witness for C6: an active member (end `2024-03-31`, today `2024-03-01`)
and an expired member (end `2024-02-01`, today `2024-03-01`). -/
theorem c6_renewal_default_start_correct_witness :
    dateLt ⟨2024, 3, 1⟩ ⟨2024, 3, 31⟩ = true ∧
    renewalDefaultStart ⟨2024, 3, 31⟩ ⟨2024, 3, 1⟩ = addOneDay ⟨2024, 3, 31⟩ ∧
    dateLt ⟨2024, 2, 1⟩ ⟨2024, 3, 1⟩ = true ∧
    renewalDefaultStart ⟨2024, 2, 1⟩ ⟨2024, 3, 1⟩ = ⟨2024, 3, 1⟩ :=
  ⟨by decide,
   (c6_renewal_default_start_correct ⟨2024, 3, 31⟩ ⟨2024, 3, 1⟩).1 (by decide),
   by decide,
   (c6_renewal_default_start_correct ⟨2024, 2, 1⟩ ⟨2024, 3, 1⟩).2 (by decide)⟩

/-- C7: `validate_member_inputs` always returns a list drawn from the five
fixed error messages (it never raises — every failure becomes a list
entry), and whenever either date fails to parse as a valid ISO calendar
date the list contains the date-format error and no ordering error (the
ordering check is short-circuited by malformed dates). -/
theorem c7_validation_total_and_date_short_circuit :
    ∀ (full_name phone plan_price start_date end_date : String),
      (∀ e ∈ validate_member_inputs full_name phone plan_price start_date end_date,
        e = nameErr ∨ e = phoneErr ∨ e = priceErr ∨ e = orderErr ∨ e = dateErr) ∧
      ((parse_iso start_date = none ∨ parse_iso end_date = none) →
        dateErr ∈ validate_member_inputs full_name phone plan_price start_date end_date ∧
        orderErr ∉ validate_member_inputs full_name phone plan_price start_date end_date) := by
  intro fn ph pr sd ed
  constructor
  · intro e he
    simp only [validate_member_inputs, List.mem_append] at he
    rcases he with ((h | h) | h) | h
    · split at h <;> simp_all
    · split at h <;> simp_all
    · split at h <;> simp_all
    · rcases hs : parse_iso sd with _ | s <;> rcases hd : parse_iso ed with _ | d' <;>
        simp only [hs, hd] at h
      · simp_all
      · simp_all
      · simp_all
      · split at h <;> simp_all
  · intro hnone
    have hmatch : (match parse_iso sd, parse_iso ed with
        | some s, some d' => if dateLe d' s then [orderErr] else []
        | _, _ => [dateErr]) = [dateErr] := by
      rcases hs : parse_iso sd with _ | s <;> rcases hd : parse_iso ed with _ | d'
      · rfl
      · rfl
      · rfl
      · rcases hnone with h | h <;> simp_all
    refine ⟨?_, ?_⟩
    · simp [validate_member_inputs, hmatch]
    · intro hmem
      simp only [validate_member_inputs, hmatch, List.mem_append] at hmem
      rcases hmem with ((h | h) | h) | h
      · split at h <;> simp_all [nameErr, orderErr]
      · split at h <;> simp_all [phoneErr, orderErr]
      · split at h <;> simp_all [priceErr, orderErr]
      · simp_all [dateErr, orderErr]

/-- Witness for C7 at a malformed start date. -/
theorem c7_validation_witness :
    (parse_iso "2024-13-01" = none ∨ parse_iso "2024-02-01" = none) ∧
    dateErr ∈ validate_member_inputs "Jane Doe" "0100000000" "300" "2024-13-01" "2024-02-01" ∧
    orderErr ∉ validate_member_inputs "Jane Doe" "0100000000" "300" "2024-13-01" "2024-02-01" :=
  ⟨by decide,
   (c7_validation_total_and_date_short_circuit
     "Jane Doe" "0100000000" "300" "2024-13-01" "2024-02-01").2 (by decide)⟩

/-- C2 counterexample: the price `"-5"` parses as a (negative) number, yet
`validate_member_inputs` returns the empty list — no price error and no
error at all — refuting the claim that a negative price is rejected. -/
theorem c2_negative_price_counterexample :
    pyFloatAccepts "-5" = true ∧
    validate_member_inputs "Jane Doe" "0100000000" "-5" "2024-01-01" "2024-02-01" = [] := by
  exact ⟨by decide, by decide⟩

/-- C2 amended: `validate_member_inputs` checks only that the price parses
as a number (`float(plan_price)` succeeding); the sign is never examined,
so any parsing price — negative ones included — produces no price error. -/
theorem c2_price_sign_never_checked :
    ∀ (full_name phone plan_price start_date end_date : String),
      pyFloatAccepts plan_price = true →
      priceErr ∉ validate_member_inputs full_name phone plan_price start_date end_date := by
  intro fn ph pr sd ed hpr hmem
  simp only [validate_member_inputs, hpr, if_true, List.mem_append] at hmem
  rcases hmem with ((h | h) | h) | h
  · split at h <;> simp_all [nameErr, priceErr]
  · split at h <;> simp_all [phoneErr, priceErr]
  · simp_all
  · rcases hs : parse_iso sd with _ | s <;> rcases hd : parse_iso ed with _ | d' <;>
      simp only [hs, hd] at h
    · simp_all [dateErr, priceErr]
    · simp_all [dateErr, priceErr]
    · simp_all [dateErr, priceErr]
    · split at h <;> simp_all [orderErr, priceErr]

/-- Witness for the amended C2 at the negative price `"-5"`. -/
theorem c2_price_sign_never_checked_witness :
    pyFloatAccepts "-5" = true ∧
    priceErr ∉ validate_member_inputs "Jane Doe" "0100000000" "-5" "2024-01-01" "2024-02-01" :=
  ⟨by decide,
   c2_price_sign_never_checked "Jane Doe" "0100000000" "-5" "2024-01-01" "2024-02-01"
     (by decide)⟩

theorem foldl_update_eq_map (today : Date) (ps : List (Nat × Date)) (acc : List MemberRow) :
    ps.foldl (fun acc p => updateStatusById acc p.1 (infer_status p.2 today)) acc =
      acc.map (fun m => ps.foldl
        (fun m p => if m.id = p.1 then { m with status := infer_status p.2 today } else m)
        m) := by
  induction ps generalizing acc with
  | nil => simp
  | cons p rest ih =>
      simp only [List.foldl_cons]
      rw [ih]
      simp only [updateStatusById, List.map_map]
      rfl

theorem foldl_setStatus_no_match (today : Date) (ps : List (Nat × Date)) :
    ∀ (m : MemberRow), (∀ p ∈ ps, p.1 ≠ m.id) →
      ps.foldl
        (fun m p => if m.id = p.1 then { m with status := infer_status p.2 today } else m)
        m = m := by
  induction ps with
  | nil => intro m _; rfl
  | cons p rest ih =>
      intro m h
      simp only [List.foldl_cons]
      have hne : ¬ (m.id = p.1) := fun he => h p (List.mem_cons_self p rest) he.symm
      rw [if_neg hne]
      exact ih m (fun q hq => h q (List.mem_cons_of_mem _ hq))

theorem foldl_setStatus_match (today : Date) (ps : List (Nat × Date)) :
    ∀ (m : MemberRow), (∃ p ∈ ps, p.1 = m.id) →
      (∀ p ∈ ps, p.1 = m.id → p.2 = m.end_date) →
      ps.foldl
        (fun m p => if m.id = p.1 then { m with status := infer_status p.2 today } else m)
        m = { m with status := infer_status m.end_date today } := by
  induction ps with
  | nil =>
      rintro m ⟨p, hp, _⟩ _
      exact absurd hp (List.not_mem_nil p)
  | cons p rest ih =>
      rintro m hex hall
      simp only [List.foldl_cons]
      by_cases hid : m.id = p.1
      · have he2 : p.2 = m.end_date := hall p (List.mem_cons_self p rest) hid.symm
        rw [if_pos hid, he2]
        have hall2 : ∀ q ∈ rest,
            q.1 = ({ m with status := infer_status m.end_date today } : MemberRow).id →
            q.2 = ({ m with status := infer_status m.end_date today } : MemberRow).end_date := by
          intro q hq hq1
          exact hall q (List.mem_cons_of_mem _ hq) hq1
        by_cases hrest : ∃ q ∈ rest,
            q.1 = ({ m with status := infer_status m.end_date today } : MemberRow).id
        · rw [ih _ hrest hall2]
        · rw [foldl_setStatus_no_match today rest _ (fun q hq hq1 => hrest ⟨q, hq, hq1⟩)]
      · rw [if_neg hid]
        rcases hex with ⟨q, hq, hq1⟩
        rcases List.mem_cons.1 hq with rfl | hq2
        · exact absurd hq1.symm hid
        · exact ih m ⟨q, hq2, hq1⟩ (fun r hr => hall r (List.mem_cons_of_mem _ hr))

/-- With pairwise-distinct ids (the `members` primary key), the status
refresh acts as the pointwise map overwriting `status` from `end_date`. -/
theorem refresh_eq_map (rows : List MemberRow) (today : Date)
    (hnd : (rows.map (fun m => m.id)).Nodup) :
    refresh_member_statuses rows today = rows.map (setStatusFromEnd today) := by
  unfold refresh_member_statuses
  rw [foldl_update_eq_map]
  apply List.map_congr_left
  intro m hm
  apply foldl_setStatus_match
  · exact ⟨(m.id, m.end_date), List.mem_map_of_mem _ hm, rfl⟩
  · intro p hp hpid
    obtain ⟨r, hr, rfl⟩ := List.mem_map.1 hp
    have : r = m := List.inj_on_of_nodup_map hnd hr hm hpid
    rw [this]

/-- C8: with pairwise-distinct member ids, the status-refresh pass sets
each row's status to `infer_status end_date` while leaving every other
field unchanged (it equals the pointwise `setStatusFromEnd` map), and a
second run on the same day returns the identical state (idempotent). -/
theorem c8_status_refresh_correct :
    ∀ (rows : List MemberRow) (today : Date),
      (rows.map (fun m => m.id)).Nodup →
      refresh_member_statuses rows today = rows.map (setStatusFromEnd today) ∧
      refresh_member_statuses (refresh_member_statuses rows today) today =
        refresh_member_statuses rows today := by
  intro rows today hnd
  have h1 := refresh_eq_map rows today hnd
  refine ⟨h1, ?_⟩
  have hnd2 : ((rows.map (setStatusFromEnd today)).map (fun m => m.id)).Nodup := by
    rw [List.map_map]
    exact hnd
  rw [h1, refresh_eq_map _ today hnd2, List.map_map]
  apply List.map_congr_left
  intro m _
  rfl

/-- Witness for C8: a two-member table, one subscription still running,
one already over. -/
theorem c8_status_refresh_correct_witness :
    (([⟨1, "A", "p", none, ⟨2024, 1, 1⟩, "1 month", 300, ⟨2024, 1, 1⟩, ⟨2024, 2, 1⟩, "active"⟩,
       ⟨2, "B", "q", none, ⟨2024, 1, 1⟩, "1 month", 300, ⟨2024, 1, 1⟩, ⟨2025, 2, 1⟩, "expired"⟩] :
        List MemberRow).map (fun m => m.id)).Nodup ∧
    refresh_member_statuses
        [⟨1, "A", "p", none, ⟨2024, 1, 1⟩, "1 month", 300, ⟨2024, 1, 1⟩, ⟨2024, 2, 1⟩, "active"⟩,
         ⟨2, "B", "q", none, ⟨2024, 1, 1⟩, "1 month", 300, ⟨2024, 1, 1⟩, ⟨2025, 2, 1⟩, "expired"⟩]
        ⟨2024, 6, 1⟩ =
      ([⟨1, "A", "p", none, ⟨2024, 1, 1⟩, "1 month", 300, ⟨2024, 1, 1⟩, ⟨2024, 2, 1⟩, "active"⟩,
        ⟨2, "B", "q", none, ⟨2024, 1, 1⟩, "1 month", 300, ⟨2024, 1, 1⟩, ⟨2025, 2, 1⟩, "expired"⟩] :
         List MemberRow).map (setStatusFromEnd ⟨2024, 6, 1⟩) :=
  ⟨by decide,
   (c8_status_refresh_correct
     [⟨1, "A", "p", none, ⟨2024, 1, 1⟩, "1 month", 300, ⟨2024, 1, 1⟩, ⟨2024, 2, 1⟩, "active"⟩,
      ⟨2, "B", "q", none, ⟨2024, 1, 1⟩, "1 month", 300, ⟨2024, 1, 1⟩, ⟨2025, 2, 1⟩, "expired"⟩]
     ⟨2024, 6, 1⟩ (by decide)).1⟩

/-- C1 (code bug): the schema declares `ON DELETE CASCADE` on
`payments.member_id`, but `get_conn` never runs `PRAGMA foreign_keys = ON`,
so `DELETE FROM members WHERE id = ?` removes only the member row.  At a
state with one member (id 1) and one payment referencing it, the delete
leaves the payment row behind, referencing a nonexistent member. -/
theorem c1_delete_member_leaves_orphan :
    deleteMember
        ⟨[⟨1, "A", "p", none, ⟨2024, 1, 1⟩, "1 month", 300, ⟨2024, 1, 1⟩, ⟨2024, 2, 1⟩, "active"⟩],
         [⟨1, 1, 300, ⟨2024, 1, 1⟩, "cash", none⟩]⟩ 1 =
      ⟨[], [⟨1, 1, 300, ⟨2024, 1, 1⟩, "cash", none⟩]⟩ ∧
    hasOrphanPayments
      (deleteMember
        ⟨[⟨1, "A", "p", none, ⟨2024, 1, 1⟩, "1 month", 300, ⟨2024, 1, 1⟩, ⟨2024, 2, 1⟩, "active"⟩],
         [⟨1, 1, 300, ⟨2024, 1, 1⟩, "cash", none⟩]⟩ 1) = true := by
  exact ⟨by decide, by decide⟩

/-- C9: `login` fails closed — when no `admin_users` row carries the given
username it returns `false`, for every possible password verifier (so the
verifier is never consulted) and every password. -/
theorem c9_login_fails_closed :
    ∀ (verify : String → String → Bool) (admins : List AdminRow)
      (username password : String),
      (∀ a ∈ admins, a.username ≠ username) →
      login verify admins username password = false := by
  intro verify admins u p h
  unfold login get_admin_by_username
  cases hf : admins.find? (fun a => a.username = u) with
  | none => rfl
  | some a =>
      have hpa := List.find?_some hf
      have ha := List.mem_of_find?_eq_some hf
      exact absurd (by simpa using hpa) (h a ha)

/-- Witness for C9: one admin row named `"admin"`, a login attempt for
`"bob"` under a verifier that accepts everything. -/
theorem c9_login_fails_closed_witness :
    (∀ a ∈ ([⟨1, "admin", "h", "t"⟩] : List AdminRow), a.username ≠ "bob") ∧
    login (fun _ _ => true) [⟨1, "admin", "h", "t"⟩] "bob" "pw" = false :=
  ⟨by decide,
   c9_login_fails_closed (fun _ _ => true) [⟨1, "admin", "h", "t"⟩] "bob" "pw"
     (by decide)⟩

theorem find_replace_key (l : List (String × String)) (k v : String) :
    (l.map (fun kv => if kv.1 = k then (k, v) else kv)).find? (fun kv => kv.1 = k) =
      if l.any (fun kv => kv.1 = k) then some (k, v) else none := by
  induction l with
  | nil => rfl
  | cons x rest ih =>
      by_cases h : x.1 = k
      · simp [List.find?, h]
      · have hd : (decide (x.1 = k)) = false := decide_eq_false h
        simp [List.find?, h, hd, ih]
        rw [hd, Bool.false_or]

theorem find_append_no_match (l : List (String × String)) (k v : String)
    (h : ∀ kv ∈ l, kv.1 ≠ k) :
    (l ++ [(k, v)]).find? (fun kv => kv.1 = k) = some (k, v) := by
  induction l with
  | nil => simp [List.find?]
  | cons x rest ih =>
      have hx : ¬ (x.1 = k) := h x (List.mem_cons_self x rest)
      simp only [List.cons_append, List.find?]
      simp only [hx, decide_False]
      exact ih (fun kv hkv => h kv (List.mem_cons_of_mem _ hkv))

/-- After `_set_setting k v`, reading `k` yields `v`. -/
theorem getSetting_setSetting (l : List (String × String)) (k v : String) :
    getSetting (setSetting l k v) k = some v := by
  unfold getSetting setSetting
  by_cases h : l.any (fun kv => kv.1 = k)
  · rw [if_pos h, find_replace_key, if_pos h]
    rfl
  · rw [if_neg h, find_append_no_match]
    · rfl
    · intro kv hkv hk
      exact h (List.any_eq_true.2 ⟨kv, hkv, by simpa using hk⟩)

theorem map_password_no_match (admins : List AdminRow) (u nh : String)
    (h : ∀ a ∈ admins, a.username ≠ u) :
    admins.map
        (fun a => if a.username = u then { a with password_hash := nh } else a) =
      admins := by
  induction admins with
  | nil => rfl
  | cons a rest ih =>
      rw [List.map_cons, if_neg (h a (List.mem_cons_self a rest)),
        ih (fun b hb => h b (List.mem_cons_of_mem _ hb))]

/-- C10: `change_password` completes for every username and always sets the
`force_password_change` setting to `"0"`; when no admin row matches the
username the `admin_users` table is left unchanged (the UPDATE hits zero
rows) yet the flag is still cleared. -/
theorem c10_change_password_clears_flag :
    ∀ (hash : String → String) (s : AuthState) (username new_password : String),
      getSetting (change_password hash s username new_password).settings
          "force_password_change" = some "0" ∧
      ((∀ a ∈ s.admins, a.username ≠ username) →
        (change_password hash s username new_password).admins = s.admins) := by
  intro hash s u pw
  constructor
  · exact getSetting_setSetting s.settings "force_password_change" "0"
  · intro h
    exact map_password_no_match s.admins u (hash pw) h

/-- Witness for C10: a lone `"admin"` row, a password change for the
unknown username `"bob"` — the row list survives and the flag reads `"0"`. -/
theorem c10_change_password_clears_flag_witness :
    (∀ a ∈ ([⟨1, "admin", "h", "t"⟩] : List AdminRow), a.username ≠ "bob") ∧
    getSetting (change_password (fun p => p) ⟨[⟨1, "admin", "h", "t"⟩], []⟩ "bob" "pw").settings
        "force_password_change" = some "0" ∧
    (change_password (fun p => p) ⟨[⟨1, "admin", "h", "t"⟩], []⟩ "bob" "pw").admins =
      [⟨1, "admin", "h", "t"⟩] :=
  ⟨by decide,
   (c10_change_password_clears_flag (fun p => p) ⟨[⟨1, "admin", "h", "t"⟩], []⟩ "bob" "pw").1,
   (c10_change_password_clears_flag (fun p => p) ⟨[⟨1, "admin", "h", "t"⟩], []⟩ "bob" "pw").2
     (by decide)⟩

end GymApp
